import Mathlib

/-!
Shallow embedding of `examples/directml/llm/decoder_model.py`.

Tensors are modelled as total index functions into `ℝ`; tensor shapes are
carried separately as explicit dimension arguments (the PyTorch source keeps
them implicit in the tensor objects).  Fallible tensor operations (the rotary
table gather `cos[position_ids]`, the embedding lookup, the per-layer cache
list access) are modelled with `Option`.  Exact real arithmetic replaces
float32 arithmetic; `torch.Tensor.to(dtype)` casts are the identity.
-/

set_option maxHeartbeats 1000000
set_option linter.unusedVariables false

namespace OliveDecoder

/-- A rank-1 tensor (one feature axis). -/
abbrev Vec : Type := ℕ → ℝ

/-- A rank-2 tensor. -/
abbrev Mat : Type := ℕ → ℕ → ℝ

/-- A rank-3 tensor, indexed (batch, seq, feature). -/
abbrev T3 : Type := ℕ → ℕ → ℕ → ℝ

/-- A rank-4 tensor, indexed (batch, head, seq, headFeature). -/
abbrev T4 : Type := ℕ → ℕ → ℕ → ℕ → ℝ

/-- `torch.nn.Linear(inFeatures, outFeatures, bias=False)`:
`y o = ∑ i, weight o i * x i` with weight of shape (out, in). -/
noncomputable def linearNoBias (inFeatures : ℕ) (weight : Mat) (x : Vec) : Vec :=
  fun o => ∑ i in Finset.range inFeatures, weight o i * x i

/-- `RMSNorm.forward`: per-token variance is the mean of the squared features
(no mean subtraction); the input is scaled by `rsqrt (variance + eps)` and
multiplied by the learned per-feature weight.  The float32 up-cast and the
cast back are the identity in exact arithmetic. -/
noncomputable def rmsNormForward (dim : ℕ) (eps : ℝ) (weight : Vec) (x : Vec) : Vec :=
  let variance := (∑ j in Finset.range dim, x j ^ 2) / (dim : ℝ)
  fun i => weight i * (x i * (Real.sqrt (variance + eps))⁻¹)

/-- `LayerNorm.forward`: subtract the per-token mean, divide by
`sqrt (variance + eps)`, apply weight and additive bias. -/
noncomputable def layerNormForward (dim : ℕ) (eps : ℝ) (weight bias : Vec) (x : Vec) : Vec :=
  let mean := (∑ j in Finset.range dim, x j) / (dim : ℝ)
  let variance := (∑ j in Finset.range dim, (x j - mean) ^ 2) / (dim : ℝ)
  fun i => weight i * ((x i - mean) / Real.sqrt (variance + eps)) + bias i

/-- The two normalization classes selectable by the construction-time
string key. -/
inductive NormKind where
  | layerNorm
  | rms
deriving DecidableEq

/-- Dispatch on the constructed normalization module.  `LayerNorm.bias` is
`torch.zeros(dim)` and is not a `Parameter`, so it stays fixed at zero. -/
noncomputable def applyNorm (kind : NormKind) (dim : ℕ) (eps : ℝ) (weight : Vec) (x : Vec) :
    Vec :=
  match kind with
  | NormKind.layerNorm => layerNormForward dim eps weight (fun _ => 0) x
  | NormKind.rms => rmsNormForward dim eps weight x

/-- `rotary_mat` frequencies: `pos = arange(0, head_dim, 2)` gives
`(head_dim + 1) / 2` entries `2 i`, and `freqs = 1 / theta ^ (pos / head_dim)`;
after `cat((freqs, freqs), dim=-1)` column `j` of the duplicated table reads
frequency index `j % ((head_dim + 1) / 2)`. -/
noncomputable def rotaryFreqs (hiddenSize numHeads : ℕ) (theta : ℝ) : ℕ → ℝ :=
  fun j =>
    let headDim : ℕ := hiddenSize / numHeads
    let halfCount : ℕ := (headDim + 1) / 2
    (theta ^ (((2 * (j % halfCount) : ℕ) : ℝ) / (headDim : ℝ)))⁻¹

/-- Cosine table returned by `rotary_mat`: entry (p, j) is
`cos (p * freq j)`. -/
noncomputable def rotaryCos (hiddenSize numHeads : ℕ) (theta : ℝ) : Mat :=
  fun p j => Real.cos ((p : ℝ) * rotaryFreqs hiddenSize numHeads theta j)

/-- Sine table returned by `rotary_mat`: entry (p, j) is `sin (p * freq j)`. -/
noncomputable def rotarySin (hiddenSize numHeads : ℕ) (theta : ℝ) : Mat :=
  fun p j => Real.sin ((p : ℝ) * rotaryFreqs hiddenSize numHeads theta j)

/-- `TransformerLayer.__init__` precomputes each rotary table with
`max_seq_len = 4096`, so the tables have exactly 4096 rows. -/
def ropeTableRows : ℕ := 4096

/-- `rotate_half`: split the last axis as `x = [x1, x2]` with `x1` of length
`lastDim / 2`, return `[-x2, x1]`. -/
noncomputable def rotateHalf (lastDim : ℕ) (x : Vec) : Vec :=
  fun j =>
    let halfDim := lastDim / 2
    if j < lastDim - halfDim then -x (j + halfDim) else x (j - (lastDim - halfDim))

/-- All position ids read by the gather `cos[position_ids]` are within the
row count of the table; torch raises an index error otherwise. -/
def ropeIndicesOk (batch seqLen tableRows : ℕ) (positionIds : ℕ → ℕ → ℕ) : Prop :=
  ∀ b < batch, ∀ s < seqLen, positionIds b s < tableRows

instance ropeIndicesOk.dec (batch seqLen tableRows : ℕ) (positionIds : ℕ → ℕ → ℕ) :
    Decidable (ropeIndicesOk batch seqLen tableRows positionIds) := by
  unfold ropeIndicesOk
  infer_instance

/-- The pure value of `apply_rope`:
`x * cos[position_ids] + rotate_half(x) * sin[position_ids]`, the gathered row
broadcast over the head axis.  The slice `cos[:, :head_dim]` is the identity
here because only columns `j < headDim` are ever read downstream. -/
noncomputable def applyRopeVal (headDim : ℕ) (cosT sinT : Mat) (positionIds : ℕ → ℕ → ℕ)
    (x : T4) : T4 :=
  fun b h s j =>
    x b h s j * cosT (positionIds b s) j +
      rotateHalf headDim (x b h s) j * sinT (positionIds b s) j

/-- `apply_rope` with the fallible gather `cos[position_ids]` made explicit:
it fails (torch index error) when any supplied position id is outside the
table rows. -/
noncomputable def applyRope (headDim tableRows batch seqLen : ℕ) (cosT sinT : Mat)
    (positionIds : ℕ → ℕ → ℕ) (x : T4) : Option T4 :=
  if ropeIndicesOk batch seqLen tableRows positionIds then
    some (applyRopeVal headDim cosT sinT positionIds x)
  else none

/-- `broadcast_key_value`: expand (batch, kvHeads, 1, seq, dim) to
(batch, kvHeads, nRep, seq, dim) and reshape to (batch, kvHeads * nRep,
seq, dim); row-major reshape sends output head `h` to source head
`h / nRep`. -/
noncomputable def broadcastKeyValue (nRep : ℕ) (hiddenStates : T4) : T4 :=
  fun b h s d => hiddenStates b (h / nRep) s d

open Classical in
/-- `ApplyMask.forward`.  The padding mask (batch, maskLen) is expanded to
(batch, 1, seqLen, maskLen), inverted as `1 - mask`, and `masked_fill` maps
every nonzero entry of the inverted mask to -10000 (zero entries keep their
value 0).  Without a cache, a lower-triangular causal mask of shape
(batch, 1, maskLen, maskLen) is built, its last `seqLen` rows are kept (row
`i` of the slice is row `maskLen - seqLen + i` of the full triangle),
inverted and filled the same way, and added.  The head-axis `expand` is the
identity on index functions.  The result is `score + mask_score`. -/
noncomputable def applyMaskForward (useCache : Bool) (score : T4) (attnMask : Mat)
    (seqLen numHeads maskLen : ℕ) : T4 :=
  fun b h i j =>
    let inverted := 1 - attnMask b j
    let padScore := if inverted = 0 then inverted else (-10000 : ℝ)
    let causalScore :=
      if useCache then 0
      else if j ≤ maskLen - seqLen + i then 0 else (-10000 : ℝ)
    score b h i j + (padScore + causalScore)

/-- `torch.nn.functional.softmax` along an axis of length `n`. -/
noncomputable def softmaxRow (n : ℕ) (s : Vec) : Vec :=
  fun j => Real.exp (s j) / ∑ k in Finset.range n, Real.exp (s k)

/-- Weights of one `SelfAttention` module. -/
structure AttnWeights where
  qProj : Mat
  kProj : Mat
  vProj : Mat
  oProj : Mat

/-- Weights of one `ProjLayerSiluMatMul` module. -/
structure MLPWeights where
  gateProj : Mat
  upProj : Mat
  downProj : Mat

/-- Weights of one `TransformerLayer`. -/
structure LayerWeights where
  inputNormWeight : Vec
  postAttnNormWeight : Vec
  attn : AttnWeights
  mlp : MLPWeights

/-- Weights of the full `DecoderModel`. -/
structure ModelWeights where
  embedTokens : Mat
  layers : List LayerWeights
  finalNormWeight : Vec
  lmHead : Mat

/-- One layer key/value cache pair: two tensors of shape
(batch, kvHeads, len, headDim) sharing sequence length `len`. -/
structure KVCache where
  len : ℕ
  k : T4
  v : T4

/-- The configuration data a successful `DecoderModel.__init__` produces:
dimensions, the resolved normalization class, the two epsilons (the final
`Model.norm` is constructed with the literal `eps=1e-5`, each layer norm with
the `epsilon` argument), and the resolved attention score scale. -/
structure BuiltModel where
  nLayers : ℕ
  vocabSize : ℕ
  hiddenSize : ℕ
  intermediateSize : ℕ
  numHeads : ℕ
  numKeyValueHeads : ℕ
  normKind : NormKind
  epsilon : ℝ
  finalNormEps : ℝ
  scale : ℝ

/-- All token ids are inside the embedding table; the lookup
`embed_tokens(tokens)` raises otherwise. -/
def tokensOk (batch seqLen vocabSize : ℕ) (tokens : ℕ → ℕ → ℕ) : Prop :=
  ∀ b < batch, ∀ s < seqLen, tokens b s < vocabSize

instance tokensOk.dec (batch seqLen vocabSize : ℕ) (tokens : ℕ → ℕ → ℕ) :
    Decidable (tokensOk batch seqLen vocabSize tokens) := by
  unfold tokensOk
  infer_instance

/-- `SelfAttention.forward`.  Project q/k/v, split heads (row-major reshape
sends flat feature `h * headDim + d` to head `h`, feature `d`), apply rotary
embedding to query and key, append the new key/value to the incoming cache
along the sequence axis, broadcast key/value heads when
`num_heads != num_key_value_heads`, form scaled dot-product scores, add the
mask, softmax over the key axis, weight the values, merge heads and apply the
output projection.  Returns the output and the extended (pre-broadcast)
cache. -/
noncomputable def selfAttnForward (M : BuiltModel) (w : AttnWeights) (useCache : Bool)
    (batch seqLen maskLen : ℕ) (x : T3) (positionIds : ℕ → ℕ → ℕ) (attnMask : Mat)
    (cosT sinT : Mat) (c : KVCache) : Option (T3 × KVCache) := do
  let headDim := M.hiddenSize / M.numHeads
  let query0 : T4 := fun b h s d => linearNoBias M.hiddenSize w.qProj (x b s) (h * headDim + d)
  let key0 : T4 := fun b h s d => linearNoBias M.hiddenSize w.kProj (x b s) (h * headDim + d)
  let value : T4 := fun b h s d => linearNoBias M.hiddenSize w.vProj (x b s) (h * headDim + d)
  let query ← applyRope headDim ropeTableRows batch seqLen cosT sinT positionIds query0
  let key ← applyRope headDim ropeTableRows batch seqLen cosT sinT positionIds key0
  let kvLen := c.len + seqLen
  let kCache : T4 := fun b h s d => if s < c.len then c.k b h s d else key b h (s - c.len) d
  let vCache : T4 := fun b h s d => if s < c.len then c.v b h s d else value b h (s - c.len) d
  let keyB := if M.numHeads ≠ M.numKeyValueHeads then
      broadcastKeyValue (M.numHeads / M.numKeyValueHeads) kCache
    else kCache
  let valueB := if M.numHeads ≠ M.numKeyValueHeads then
      broadcastKeyValue (M.numHeads / M.numKeyValueHeads) vCache
    else vCache
  let score : T4 := fun b h i j =>
    (∑ d in Finset.range headDim, query b h i d * keyB b h j d) / M.scale
  let masked := applyMaskForward useCache score attnMask seqLen M.numHeads maskLen
  let attn : T4 := fun b h i d =>
    ∑ j in Finset.range kvLen, softmaxRow kvLen (masked b h i) j * valueB b h j d
  let merged : T3 := fun b s f => attn b (f / headDim) s (f % headDim)
  some (fun b s => linearNoBias M.hiddenSize w.oProj (merged b s), ⟨kvLen, kCache, vCache⟩)

/-- `ProjLayerSiluMatMul.forward`:
`down_proj (w1x * sigmoid w1x * up_proj x)` with `w1x = gate_proj x`. -/
noncomputable def mlpForward (hiddenSize intermediateSize : ℕ) (w : MLPWeights) (x : Vec) :
    Vec :=
  let w1x := linearNoBias hiddenSize w.gateProj x
  let upx := linearNoBias hiddenSize w.upProj x
  linearNoBias intermediateSize w.downProj
    (fun i => w1x i * (1 / (1 + Real.exp (-w1x i))) * upx i)

/-- `TransformerLayer.forward`: pre-norm residual attention followed by
pre-norm residual MLP; the rotary tables are the layer's precomputed
`self.cos`/`self.sin` (theta = 10000). -/
noncomputable def transformerLayerForward (M : BuiltModel) (lw : LayerWeights)
    (useCache : Bool) (batch seqLen maskLen : ℕ) (x : T3) (positionIds : ℕ → ℕ → ℕ)
    (attnMask : Mat) (c : KVCache) : Option (T3 × KVCache) := do
  let cosT := rotaryCos M.hiddenSize M.numHeads 10000
  let sinT := rotarySin M.hiddenSize M.numHeads 10000
  let normed : T3 := fun b s =>
    applyNorm M.normKind M.hiddenSize M.epsilon lw.inputNormWeight (x b s)
  let (h, cOut) ← selfAttnForward M lw.attn useCache batch seqLen maskLen normed positionIds
    attnMask cosT sinT c
  let h2 : T3 := fun b s f => x b s f + h b s f
  let normed2 : T3 := fun b s =>
    applyNorm M.normKind M.hiddenSize M.epsilon lw.postAttnNormWeight (h2 b s)
  some (fun b s f => h2 b s f + mlpForward M.hiddenSize M.intermediateSize lw.mlp (normed2 b s) f,
    cOut)

/-- The layer loop of `Model.forward`: each iteration reads
`cache[layer_idx]` (a missing entry is an index error), copies it by value
(`clone().detach()` — the caller's tensors are never written), runs the
layer, and collects the extended cache. -/
noncomputable def runLayers (M : BuiltModel) (useCache : Bool) (batch seqLen maskLen : ℕ)
    (positionIds : ℕ → ℕ → ℕ) (attnMask : Mat) :
    List LayerWeights → List KVCache → T3 → Option (T3 × List KVCache)
  | [], _, x => some (x, [])
  | lw :: rest, c :: cs, x => do
      let (x2, cOut) ← transformerLayerForward M lw useCache batch seqLen maskLen x positionIds
        attnMask c
      let (xf, cOuts) ← runLayers M useCache batch seqLen maskLen positionIds attnMask rest cs x2
      some (xf, cOut :: cOuts)
  | _ :: _, [], _ => none

/-- `DecoderModel.forward_common` composed with `Model.forward`: embed the
tokens, thread hidden state and caches through the layers, apply the final
norm (constructed with eps = 1e-5) and the `lm_head` projection.  Returns the
logits and the per-layer extended caches (the source flattens them into one
return list). -/
noncomputable def modelForward (M : BuiltModel) (W : ModelWeights) (useCache : Bool)
    (batch seqLen maskLen : ℕ) (tokens positionIds : ℕ → ℕ → ℕ) (attnMask : Mat)
    (cache : List KVCache) : Option (T3 × List KVCache) := do
  if tokensOk batch seqLen M.vocabSize tokens then
    let x : T3 := fun b s f => W.embedTokens (tokens b s) f
    let (hidden, caches) ← runLayers M useCache batch seqLen maskLen positionIds attnMask
      W.layers cache x
    let final : T3 := fun b s =>
      applyNorm M.normKind M.hiddenSize M.finalNormEps W.finalNormWeight (hidden b s)
    some (fun b s => linearNoBias M.hiddenSize W.lmHead (final b s), caches)
  else none

/-- The dictionary lookup `{"layer_norm": ..., "rms": ...}[normalization_type]`
in `Model.__init__` and `TransformerLayer.__init__`: a key error for any
other string. -/
def normKindOfString (s : String) : Option NormKind :=
  if s = "layer_norm" then some NormKind.layerNorm
  else if s = "rms" then some NormKind.rms
  else none

/-- `SelfAttention.__init__`: `head_dim = int(hidden_size / num_heads)`
(a zero-division error when `num_heads = 0`), then the score scale is
`head_dim` for "HeadDim", `sqrt head_dim` for "SquareRootHeadDim", and a
`ValueError` for any other string. -/
noncomputable def selfAttnScale (hiddenSize numHeads : ℕ) (scaleType : String) : Option ℝ :=
  if numHeads = 0 then none
  else if scaleType = "HeadDim" then some ((hiddenSize / numHeads : ℕ) : ℝ)
  else if scaleType = "SquareRootHeadDim" then some (Real.sqrt ((hiddenSize / numHeads : ℕ) : ℝ))
  else none

/-- `TransformerLayer.__init__`: two normalization lookups (input and
post-attention) and the `SelfAttention` construction; any of them can
fail. -/
noncomputable def mkTransformerLayer (hiddenSize numHeads : ℕ) (scaleType normType : String) :
    Option (NormKind × ℝ) := do
  let nk ← normKindOfString normType
  let _ ← normKindOfString normType
  let sc ← selfAttnScale hiddenSize numHeads scaleType
  some (nk, sc)

/-- The `for _ in range(n_layers)` construction loop of `Model.__init__`:
with zero layers no `TransformerLayer` (hence no `SelfAttention`) is ever
constructed. -/
noncomputable def mkLayerStack (hiddenSize numHeads : ℕ) (scaleType normType : String) :
    ℕ → Option (List (NormKind × ℝ))
  | 0 => some []
  | n + 1 => do
      let l ← mkTransformerLayer hiddenSize numHeads scaleType normType
      let rest ← mkLayerStack hiddenSize numHeads scaleType normType n
      some (l :: rest)

/-- The scale value each constructed layer stores (meaningful only when the
scale type was validated by at least one `SelfAttention` construction). -/
noncomputable def resolvedScale (hiddenSize numHeads : ℕ) (scaleType : String) : ℝ :=
  if scaleType = "HeadDim" then ((hiddenSize / numHeads : ℕ) : ℝ)
  else Real.sqrt ((hiddenSize / numHeads : ℕ) : ℝ)

/-- `DecoderModel.__init__`: builds `Model` (final normalization looked up
with the literal `eps=1e-5`, then the layer stack, each layer receiving the
`epsilon` argument) and the `lm_head`.  Returns the configuration record of
the constructed model, or fails where the source raises. -/
noncomputable def mkDecoderModel (nLayers vocabSize hiddenSize intermediateSize numHeads
    numKeyValueHeads : ℕ) (scaleType normType : String) (epsilon : ℝ) : Option BuiltModel := do
  let nk ← normKindOfString normType
  let _ ← mkLayerStack hiddenSize numHeads scaleType normType nLayers
  some { nLayers := nLayers, vocabSize := vocabSize, hiddenSize := hiddenSize,
         intermediateSize := intermediateSize, numHeads := numHeads,
         numKeyValueHeads := numKeyValueHeads, normKind := nk, epsilon := epsilon,
         finalNormEps := 1e-5, scale := resolvedScale hiddenSize numHeads scaleType }

/-! ### Closed forms of the attention body

The following definitions name the intermediate tensors of
`SelfAttention.forward`; the evaluation lemma below shows that when the
rotary gather is in range, `selfAttnForward` returns exactly these values. -/

/-- The rotary-embedded query tensor of `SelfAttention.forward`. -/
noncomputable def attnQueryRoped (M : BuiltModel) (w : AttnWeights) (x : T3)
    (positionIds : ℕ → ℕ → ℕ) (cosT sinT : Mat) : T4 :=
  applyRopeVal (M.hiddenSize / M.numHeads) cosT sinT positionIds
    (fun b h s d => linearNoBias M.hiddenSize w.qProj (x b s) (h * (M.hiddenSize / M.numHeads) + d))

/-- The rotary-embedded key tensor of `SelfAttention.forward`. -/
noncomputable def attnKeyRoped (M : BuiltModel) (w : AttnWeights) (x : T3)
    (positionIds : ℕ → ℕ → ℕ) (cosT sinT : Mat) : T4 :=
  applyRopeVal (M.hiddenSize / M.numHeads) cosT sinT positionIds
    (fun b h s d => linearNoBias M.hiddenSize w.kProj (x b s) (h * (M.hiddenSize / M.numHeads) + d))

/-- The (non-rotated) value tensor of `SelfAttention.forward`. -/
noncomputable def attnValue (M : BuiltModel) (w : AttnWeights) (x : T3) : T4 :=
  fun b h s d => linearNoBias M.hiddenSize w.vProj (x b s) (h * (M.hiddenSize / M.numHeads) + d)

/-- `torch.cat` along the sequence axis (dim 2): the first `len` positions
come from `old`, the rest from `new`. -/
noncomputable def catSeq (len : ℕ) (old new : T4) : T4 :=
  fun b h s d => if s < len then old b h s d else new b h (s - len) d

/-- The extended key cache returned by `SelfAttention.forward`. -/
noncomputable def selfAttnKCat (M : BuiltModel) (w : AttnWeights) (x : T3)
    (positionIds : ℕ → ℕ → ℕ) (cosT sinT : Mat) (c : KVCache) : T4 :=
  catSeq c.len c.k (attnKeyRoped M w x positionIds cosT sinT)

/-- The extended value cache returned by `SelfAttention.forward`. -/
noncomputable def selfAttnVCat (M : BuiltModel) (w : AttnWeights) (x : T3) (c : KVCache) : T4 :=
  catSeq c.len c.v (attnValue M w x)

/-- The attention output of `SelfAttention.forward` (closed form). -/
noncomputable def selfAttnOut (M : BuiltModel) (w : AttnWeights) (useCache : Bool)
    (seqLen maskLen : ℕ) (x : T3) (positionIds : ℕ → ℕ → ℕ) (attnMask : Mat)
    (cosT sinT : Mat) (c : KVCache) : T3 :=
  let headDim := M.hiddenSize / M.numHeads
  let query := attnQueryRoped M w x positionIds cosT sinT
  let kvLen := c.len + seqLen
  let kCache := selfAttnKCat M w x positionIds cosT sinT c
  let vCache := selfAttnVCat M w x c
  let keyB := if M.numHeads ≠ M.numKeyValueHeads then
      broadcastKeyValue (M.numHeads / M.numKeyValueHeads) kCache
    else kCache
  let valueB := if M.numHeads ≠ M.numKeyValueHeads then
      broadcastKeyValue (M.numHeads / M.numKeyValueHeads) vCache
    else vCache
  let score : T4 := fun b h i j =>
    (∑ d in Finset.range headDim, query b h i d * keyB b h j d) / M.scale
  let masked := applyMaskForward useCache score attnMask seqLen M.numHeads maskLen
  let attn : T4 := fun b h i d =>
    ∑ j in Finset.range kvLen, softmaxRow kvLen (masked b h i) j * valueB b h j d
  fun b s => linearNoBias M.hiddenSize w.oProj (fun f => attn b (f / headDim) s (f % headDim))

theorem selfAttnForward_eq (M : BuiltModel) (w : AttnWeights) (useCache : Bool)
    (batch seqLen maskLen : ℕ) (x : T3) (positionIds : ℕ → ℕ → ℕ) (attnMask : Mat)
    (cosT sinT : Mat) (c : KVCache)
    (hpos : ropeIndicesOk batch seqLen ropeTableRows positionIds) :
    selfAttnForward M w useCache batch seqLen maskLen x positionIds attnMask cosT sinT c =
      some (selfAttnOut M w useCache seqLen maskLen x positionIds attnMask cosT sinT c,
        ⟨c.len + seqLen, selfAttnKCat M w x positionIds cosT sinT c, selfAttnVCat M w x c⟩) := by
  simp only [selfAttnForward, applyRope, if_pos hpos, Option.bind_eq_bind, Option.some_bind]
  rfl

theorem selfAttnForward_none (M : BuiltModel) (w : AttnWeights) (useCache : Bool)
    (batch seqLen maskLen : ℕ) (x : T3) (positionIds : ℕ → ℕ → ℕ) (attnMask : Mat)
    (cosT sinT : Mat) (c : KVCache)
    (hpos : ¬ ropeIndicesOk batch seqLen ropeTableRows positionIds) :
    selfAttnForward M w useCache batch seqLen maskLen x positionIds attnMask cosT sinT c =
      none := by
  simp only [selfAttnForward, applyRope, if_neg hpos, Option.bind_eq_bind, Option.none_bind]

/-- The normalized input a layer feeds to its attention block. -/
noncomputable def layerNormedIn (M : BuiltModel) (lw : LayerWeights) (x : T3) : T3 :=
  fun b s => applyNorm M.normKind M.hiddenSize M.epsilon lw.inputNormWeight (x b s)

/-- The hidden-state output of `TransformerLayer.forward` (closed form). -/
noncomputable def layerOut (M : BuiltModel) (lw : LayerWeights) (useCache : Bool)
    (seqLen maskLen : ℕ) (x : T3) (positionIds : ℕ → ℕ → ℕ) (attnMask : Mat)
    (c : KVCache) : T3 :=
  let cosT := rotaryCos M.hiddenSize M.numHeads 10000
  let sinT := rotarySin M.hiddenSize M.numHeads 10000
  let h := selfAttnOut M lw.attn useCache seqLen maskLen (layerNormedIn M lw x) positionIds
    attnMask cosT sinT c
  let h2 : T3 := fun b s f => x b s f + h b s f
  fun b s f => h2 b s f +
    mlpForward M.hiddenSize M.intermediateSize lw.mlp
      (applyNorm M.normKind M.hiddenSize M.epsilon lw.postAttnNormWeight (h2 b s)) f

/-- The extended key cache returned by `TransformerLayer.forward`. -/
noncomputable def layerKCat (M : BuiltModel) (lw : LayerWeights) (x : T3)
    (positionIds : ℕ → ℕ → ℕ) (c : KVCache) : T4 :=
  selfAttnKCat M lw.attn (layerNormedIn M lw x) positionIds
    (rotaryCos M.hiddenSize M.numHeads 10000) (rotarySin M.hiddenSize M.numHeads 10000) c

/-- The extended value cache returned by `TransformerLayer.forward`. -/
noncomputable def layerVCat (M : BuiltModel) (lw : LayerWeights) (x : T3) (c : KVCache) : T4 :=
  selfAttnVCat M lw.attn (layerNormedIn M lw x) c

theorem transformerLayerForward_eq (M : BuiltModel) (lw : LayerWeights) (useCache : Bool)
    (batch seqLen maskLen : ℕ) (x : T3) (positionIds : ℕ → ℕ → ℕ) (attnMask : Mat)
    (c : KVCache) (hpos : ropeIndicesOk batch seqLen ropeTableRows positionIds) :
    transformerLayerForward M lw useCache batch seqLen maskLen x positionIds attnMask c =
      some (layerOut M lw useCache seqLen maskLen x positionIds attnMask c,
        ⟨c.len + seqLen, layerKCat M lw x positionIds c, layerVCat M lw x c⟩) := by
  simp only [transformerLayerForward,
    selfAttnForward_eq M lw.attn useCache batch seqLen maskLen _ positionIds attnMask _ _ c hpos,
    Option.bind_eq_bind, Option.some_bind]
  rfl

theorem transformerLayerForward_none (M : BuiltModel) (lw : LayerWeights) (useCache : Bool)
    (batch seqLen maskLen : ℕ) (x : T3) (positionIds : ℕ → ℕ → ℕ) (attnMask : Mat)
    (c : KVCache) (hpos : ¬ ropeIndicesOk batch seqLen ropeTableRows positionIds) :
    transformerLayerForward M lw useCache batch seqLen maskLen x positionIds attnMask c =
      none := by
  simp only [transformerLayerForward,
    selfAttnForward_none M lw.attn useCache batch seqLen maskLen _ positionIds attnMask _ _ c hpos,
    Option.bind_eq_bind, Option.none_bind]

/-- Closed form of the hidden state produced by the layer loop. -/
noncomputable def runLayersOut (M : BuiltModel) (useCache : Bool) (seqLen maskLen : ℕ)
    (positionIds : ℕ → ℕ → ℕ) (attnMask : Mat) :
    List LayerWeights → List KVCache → T3 → T3
  | [], _, x => x
  | lw :: rest, c :: cs, x =>
      runLayersOut M useCache seqLen maskLen positionIds attnMask rest cs
        (layerOut M lw useCache seqLen maskLen x positionIds attnMask c)
  | _ :: _, [], x => x

/-- Closed form of the extended cache list produced by the layer loop. -/
noncomputable def runLayersCaches (M : BuiltModel) (useCache : Bool) (seqLen maskLen : ℕ)
    (positionIds : ℕ → ℕ → ℕ) (attnMask : Mat) :
    List LayerWeights → List KVCache → T3 → List KVCache
  | [], _, _ => []
  | lw :: rest, c :: cs, x =>
      ⟨c.len + seqLen, layerKCat M lw x positionIds c, layerVCat M lw x c⟩ ::
        runLayersCaches M useCache seqLen maskLen positionIds attnMask rest cs
          (layerOut M lw useCache seqLen maskLen x positionIds attnMask c)
  | _ :: _, [], _ => []

theorem runLayers_eq (M : BuiltModel) (useCache : Bool) (batch seqLen maskLen : ℕ)
    (positionIds : ℕ → ℕ → ℕ) (attnMask : Mat)
    (hpos : ropeIndicesOk batch seqLen ropeTableRows positionIds) :
    ∀ (ls : List LayerWeights) (cs : List KVCache) (x : T3), ls.length ≤ cs.length →
      runLayers M useCache batch seqLen maskLen positionIds attnMask ls cs x =
        some (runLayersOut M useCache seqLen maskLen positionIds attnMask ls cs x,
          runLayersCaches M useCache seqLen maskLen positionIds attnMask ls cs x) := by
  intro ls
  induction ls with
  | nil => intro cs x _; rfl
  | cons lw rest ih =>
      intro cs x hlen
      cases cs with
      | nil => simp at hlen
      | cons c cs2 =>
          simp only [List.length_cons, Nat.succ_le_succ_iff] at hlen
          simp only [runLayers,
            transformerLayerForward_eq M lw useCache batch seqLen maskLen x positionIds attnMask
              c hpos,
            Option.bind_eq_bind, Option.some_bind, ih cs2 _ hlen, runLayersOut, runLayersCaches]

theorem runLayers_none (M : BuiltModel) (useCache : Bool) (batch seqLen maskLen : ℕ)
    (positionIds : ℕ → ℕ → ℕ) (attnMask : Mat)
    (hpos : ¬ ropeIndicesOk batch seqLen ropeTableRows positionIds)
    (lw : LayerWeights) (rest : List LayerWeights) (cs : List KVCache) (x : T3) :
    runLayers M useCache batch seqLen maskLen positionIds attnMask (lw :: rest) cs x = none := by
  cases cs with
  | nil => rfl
  | cons c cs2 =>
      simp only [runLayers,
        transformerLayerForward_none M lw useCache batch seqLen maskLen x positionIds attnMask
          c hpos,
        Option.bind_eq_bind, Option.none_bind]

/-- Closed form of the final hidden state of `Model.forward`. -/
noncomputable def modelHidden (M : BuiltModel) (W : ModelWeights) (useCache : Bool)
    (seqLen maskLen : ℕ) (tokens positionIds : ℕ → ℕ → ℕ) (attnMask : Mat)
    (cache : List KVCache) : T3 :=
  runLayersOut M useCache seqLen maskLen positionIds attnMask W.layers cache
    (fun b s f => W.embedTokens (tokens b s) f)

/-- Closed form of the logits of `DecoderModel.forward_common`. -/
noncomputable def modelLogits (M : BuiltModel) (W : ModelWeights) (useCache : Bool)
    (seqLen maskLen : ℕ) (tokens positionIds : ℕ → ℕ → ℕ) (attnMask : Mat)
    (cache : List KVCache) : T3 :=
  fun b s => linearNoBias M.hiddenSize W.lmHead
    (applyNorm M.normKind M.hiddenSize M.finalNormEps W.finalNormWeight
      (modelHidden M W useCache seqLen maskLen tokens positionIds attnMask cache b s))

/-- Closed form of the cache list returned by `DecoderModel.forward_common`. -/
noncomputable def modelCaches (M : BuiltModel) (W : ModelWeights) (useCache : Bool)
    (seqLen maskLen : ℕ) (tokens positionIds : ℕ → ℕ → ℕ) (attnMask : Mat)
    (cache : List KVCache) : List KVCache :=
  runLayersCaches M useCache seqLen maskLen positionIds attnMask W.layers cache
    (fun b s f => W.embedTokens (tokens b s) f)

theorem modelForward_eq (M : BuiltModel) (W : ModelWeights) (useCache : Bool)
    (batch seqLen maskLen : ℕ) (tokens positionIds : ℕ → ℕ → ℕ) (attnMask : Mat)
    (cache : List KVCache)
    (htok : tokensOk batch seqLen M.vocabSize tokens)
    (hpos : ropeIndicesOk batch seqLen ropeTableRows positionIds)
    (hlen : W.layers.length ≤ cache.length) :
    modelForward M W useCache batch seqLen maskLen tokens positionIds attnMask cache =
      some (modelLogits M W useCache seqLen maskLen tokens positionIds attnMask cache,
        modelCaches M W useCache seqLen maskLen tokens positionIds attnMask cache) := by
  simp only [modelForward, if_pos htok,
    runLayers_eq M useCache batch seqLen maskLen positionIds attnMask hpos W.layers cache _ hlen,
    Option.bind_eq_bind, Option.some_bind]
  rfl

theorem selfAttnForward_success (M : BuiltModel) (w : AttnWeights) (useCache : Bool)
    (batch seqLen maskLen : ℕ) (x : T3) (positionIds : ℕ → ℕ → ℕ) (attnMask : Mat)
    (cosT sinT : Mat) (c : KVCache) (p : T3 × KVCache)
    (h : selfAttnForward M w useCache batch seqLen maskLen x positionIds attnMask cosT sinT c =
      some p) :
    ropeIndicesOk batch seqLen ropeTableRows positionIds ∧
      p = (selfAttnOut M w useCache seqLen maskLen x positionIds attnMask cosT sinT c,
        ⟨c.len + seqLen, selfAttnKCat M w x positionIds cosT sinT c,
          selfAttnVCat M w x c⟩) := by
  by_cases hpos : ropeIndicesOk batch seqLen ropeTableRows positionIds
  · rw [selfAttnForward_eq M w useCache batch seqLen maskLen x positionIds attnMask cosT sinT
      c hpos] at h
    exact ⟨hpos, (Option.some_inj.mp h).symm⟩
  · rw [selfAttnForward_none M w useCache batch seqLen maskLen x positionIds attnMask cosT sinT
      c hpos] at h
    cases h

theorem transformerLayerForward_success (M : BuiltModel) (lw : LayerWeights) (useCache : Bool)
    (batch seqLen maskLen : ℕ) (x : T3) (positionIds : ℕ → ℕ → ℕ) (attnMask : Mat)
    (c : KVCache) (p : T3 × KVCache)
    (h : transformerLayerForward M lw useCache batch seqLen maskLen x positionIds attnMask c =
      some p) :
    ropeIndicesOk batch seqLen ropeTableRows positionIds ∧
      p = (layerOut M lw useCache seqLen maskLen x positionIds attnMask c,
        ⟨c.len + seqLen, layerKCat M lw x positionIds c, layerVCat M lw x c⟩) := by
  by_cases hpos : ropeIndicesOk batch seqLen ropeTableRows positionIds
  · rw [transformerLayerForward_eq M lw useCache batch seqLen maskLen x positionIds attnMask
      c hpos] at h
    exact ⟨hpos, (Option.some_inj.mp h).symm⟩
  · rw [transformerLayerForward_none M lw useCache batch seqLen maskLen x positionIds attnMask
      c hpos] at h
    cases h

theorem runLayers_success (M : BuiltModel) (useCache : Bool) (batch seqLen maskLen : ℕ)
    (positionIds : ℕ → ℕ → ℕ) (attnMask : Mat) :
    ∀ (ls : List LayerWeights) (cs : List KVCache) (x : T3) (p : T3 × List KVCache),
      runLayers M useCache batch seqLen maskLen positionIds attnMask ls cs x = some p →
      (ls = [] ∨ ropeIndicesOk batch seqLen ropeTableRows positionIds) ∧
        ls.length ≤ cs.length ∧
        p = (runLayersOut M useCache seqLen maskLen positionIds attnMask ls cs x,
          runLayersCaches M useCache seqLen maskLen positionIds attnMask ls cs x) := by
  intro ls
  induction ls with
  | nil =>
      intro cs x p h
      refine ⟨Or.inl rfl, by simp, ?_⟩
      simpa [runLayers, runLayersOut, runLayersCaches] using (Option.some_inj.mp h).symm
  | cons lw rest ih =>
      intro cs x p h
      cases cs with
      | nil => cases h
      | cons c cs2 =>
          simp only [runLayers, Option.bind_eq_bind] at h
          cases hl : transformerLayerForward M lw useCache batch seqLen maskLen x positionIds
            attnMask c with
          | none => rw [hl] at h; cases h
          | some q =>
              rw [hl] at h
              obtain ⟨hpos, hq⟩ := transformerLayerForward_success M lw useCache batch seqLen
                maskLen x positionIds attnMask c q hl
              subst hq
              simp only [Option.some_bind] at h
              cases hr : runLayers M useCache batch seqLen maskLen positionIds attnMask rest cs2
                (layerOut M lw useCache seqLen maskLen x positionIds attnMask c) with
              | none => rw [hr] at h; cases h
              | some r =>
                  rw [hr] at h
                  obtain ⟨_, hlen, hrEq⟩ := ih cs2 _ r hr
                  subst hrEq
                  simp only [Option.some_bind] at h
                  refine ⟨Or.inr hpos, by simpa using Nat.succ_le_succ hlen, ?_⟩
                  simp only [runLayersOut, runLayersCaches]
                  exact (Option.some_inj.mp h).symm

theorem modelForward_success (M : BuiltModel) (W : ModelWeights) (useCache : Bool)
    (batch seqLen maskLen : ℕ) (tokens positionIds : ℕ → ℕ → ℕ) (attnMask : Mat)
    (cache : List KVCache) (p : T3 × List KVCache)
    (h : modelForward M W useCache batch seqLen maskLen tokens positionIds attnMask cache =
      some p) :
    tokensOk batch seqLen M.vocabSize tokens ∧
      (W.layers = [] ∨ ropeIndicesOk batch seqLen ropeTableRows positionIds) ∧
      W.layers.length ≤ cache.length ∧
      p = (modelLogits M W useCache seqLen maskLen tokens positionIds attnMask cache,
        modelCaches M W useCache seqLen maskLen tokens positionIds attnMask cache) := by
  by_cases htok : tokensOk batch seqLen M.vocabSize tokens
  · simp only [modelForward, if_pos htok, Option.bind_eq_bind] at h
    cases hr : runLayers M useCache batch seqLen maskLen positionIds attnMask W.layers cache
      (fun b s f => W.embedTokens (tokens b s) f) with
    | none => rw [hr] at h; cases h
    | some r =>
        rw [hr] at h
        obtain ⟨hnil, hlen, hrEq⟩ := runLayers_success M useCache batch seqLen maskLen
          positionIds attnMask W.layers cache _ r hr
        subst hrEq
        simp only [Option.some_bind] at h
        refine ⟨htok, hnil, hlen, ?_⟩
        simp only [modelLogits, modelCaches, modelHidden]
        exact (Option.some_inj.mp h).symm
  · simp only [modelForward, if_neg htok] at h
    cases h

/-- A default cache entry, used only as the `List.getD` fallback. -/
def cacheDefault : KVCache := ⟨0, fun _ _ _ _ => 0, fun _ _ _ _ => 0⟩

/-- C5: the combined additive attention bias.  For a 0/1 padding mask the
value added to the raw score at query row `i`, key column `j` is: the padding
term (0 where the mask is 1, -10000 where it is not), plus — in no-cache mode
only — the causal term obtained from the last `seqLen` rows of the
lower-triangular mask (0 when `j ≤ maskLen - seqLen + i`, -10000 beyond the
diagonal); the sum is independent of the head index `h`, i.e. broadcast
across all heads. -/
theorem mask_bias_characterization (useCache : Bool) (score : T4) (attnMask : Mat)
    (seqLen numHeads maskLen : ℕ)
    (hm : ∀ b j, attnMask b j = 0 ∨ attnMask b j = 1) (b h i j : ℕ) :
    applyMaskForward useCache score attnMask seqLen numHeads maskLen b h i j =
      score b h i j +
        ((if attnMask b j = 1 then 0 else (-10000 : ℝ)) +
          (if useCache then 0 else
            if j ≤ maskLen - seqLen + i then 0 else (-10000 : ℝ))) := by
  unfold applyMaskForward
  rcases hm b j with h0 | h1
  · rw [h0]
    norm_num
  · rw [h1]
    norm_num

theorem mask_bias_characterization_witness :
    applyMaskForward false (fun _ _ _ _ => 0) (fun _ _ => 1) 2 1 2 0 0 1 0 =
      (fun (_ _ _ _ : ℕ) => (0 : ℝ)) 0 0 1 0 +
        ((if (fun (_ _ : ℕ) => (1 : ℝ)) 0 0 = 1 then 0 else (-10000 : ℝ)) +
          (if false then 0 else if (0 : ℕ) ≤ 2 - 2 + 1 then 0 else (-10000 : ℝ))) :=
  mask_bias_characterization false (fun _ _ _ _ => 0) (fun _ _ => 1) 2 1 2
    (fun _ _ => Or.inr rfl) 0 0 1 0

/-- The attention output computed with the grouped-query broadcast applied
unconditionally (the grouped path), for comparison with the ungrouped path
the source takes when `num_heads == num_key_value_heads`. -/
noncomputable def selfAttnOutGrouped (M : BuiltModel) (w : AttnWeights) (useCache : Bool)
    (seqLen maskLen : ℕ) (x : T3) (positionIds : ℕ → ℕ → ℕ) (attnMask : Mat)
    (cosT sinT : Mat) (c : KVCache) : T3 :=
  let headDim := M.hiddenSize / M.numHeads
  let query := attnQueryRoped M w x positionIds cosT sinT
  let kvLen := c.len + seqLen
  let keyB := broadcastKeyValue (M.numHeads / M.numKeyValueHeads)
    (selfAttnKCat M w x positionIds cosT sinT c)
  let valueB := broadcastKeyValue (M.numHeads / M.numKeyValueHeads)
    (selfAttnVCat M w x c)
  let score : T4 := fun b h i j =>
    (∑ d in Finset.range headDim, query b h i d * keyB b h j d) / M.scale
  let masked := applyMaskForward useCache score attnMask seqLen M.numHeads maskLen
  let attn : T4 := fun b h i d =>
    ∑ j in Finset.range kvLen, softmaxRow kvLen (masked b h i) j * valueB b h j d
  fun b s => linearNoBias M.hiddenSize w.oProj (fun f => attn b (f / headDim) s (f % headDim))

/-- C6: with `num_heads = num_key_value_heads` (and a positive head count)
`broadcast_key_value` with repeat factor 1 is the identity on tensors, and
the self-attention output of the always-broadcast grouped path coincides with
the ungrouped path the source takes in that case. -/
theorem grouped_broadcast_noop (M : BuiltModel) (w : AttnWeights) (useCache : Bool)
    (seqLen maskLen : ℕ) (x : T3) (positionIds : ℕ → ℕ → ℕ) (attnMask : Mat)
    (cosT sinT : Mat) (c : KVCache)
    (hEq : M.numHeads = M.numKeyValueHeads) (h0 : 0 < M.numKeyValueHeads) :
    (∀ t : T4, broadcastKeyValue 1 t = t) ∧
      selfAttnOutGrouped M w useCache seqLen maskLen x positionIds attnMask cosT sinT c =
        selfAttnOut M w useCache seqLen maskLen x positionIds attnMask cosT sinT c := by
  have hid : ∀ t : T4, broadcastKeyValue 1 t = t := by
    intro t
    funext b h s d
    simp [broadcastKeyValue]
  refine ⟨hid, ?_⟩
  unfold selfAttnOutGrouped selfAttnOut
  simp only [hEq, Nat.div_self h0, hid, ne_eq, not_true_eq_false, if_false]

theorem grouped_broadcast_noop_witness :
    (∀ t : T4, broadcastKeyValue 1 t = t) ∧
      selfAttnOutGrouped ⟨1, 1, 1, 1, 1, 1, NormKind.rms, 1, 1, 1⟩
          ⟨fun _ _ => 0, fun _ _ => 0, fun _ _ => 0, fun _ _ => 0⟩ false 1 1
          (fun _ _ _ => 0) (fun _ _ => 0) (fun _ _ => 1) (fun _ _ => 1) (fun _ _ => 0)
          cacheDefault =
        selfAttnOut ⟨1, 1, 1, 1, 1, 1, NormKind.rms, 1, 1, 1⟩
          ⟨fun _ _ => 0, fun _ _ => 0, fun _ _ => 0, fun _ _ => 0⟩ false 1 1
          (fun _ _ _ => 0) (fun _ _ => 0) (fun _ _ => 1) (fun _ _ => 1) (fun _ _ => 0)
          cacheDefault :=
  grouped_broadcast_noop ⟨1, 1, 1, 1, 1, 1, NormKind.rms, 1, 1, 1⟩
    ⟨fun _ _ => 0, fun _ _ => 0, fun _ _ => 0, fun _ _ => 0⟩ false 1 1
    (fun _ _ _ => 0) (fun _ _ => 0) (fun _ _ => 1) (fun _ _ => 1) (fun _ _ => 0)
    cacheDefault rfl (by decide)

/-- C7: `apply_rope` over the tables precomputed by `rotary_mat`, with every
position id equal to 0, returns the input unchanged: row 0 of the cosine
table is all ones (`cos 0 = 1`) and row 0 of the sine table is all zeros
(`sin 0 = 0`), and the zero position is inside the 4096 precomputed rows. -/
theorem rope_at_position_zero (hiddenSize numHeads : ℕ) (theta : ℝ)
    (headDim batch seqLen : ℕ) (x : T4) :
    applyRope headDim ropeTableRows batch seqLen (rotaryCos hiddenSize numHeads theta)
      (rotarySin hiddenSize numHeads theta) (fun _ _ => 0) x = some x := by
  rw [applyRope, if_pos]
  · congr 1
    funext b h s j
    simp [applyRopeVal, rotaryCos, rotarySin]
  · intro b _ s _
    norm_num [ropeTableRows]

theorem runLayersCaches_getD (M : BuiltModel) (useCache : Bool) (seqLen maskLen : ℕ)
    (positionIds : ℕ → ℕ → ℕ) (attnMask : Mat) :
    ∀ (ls : List LayerWeights) (cs : List KVCache) (x : T3) (i : ℕ),
      i < ls.length → i < cs.length →
      ((runLayersCaches M useCache seqLen maskLen positionIds attnMask ls cs x).getD i
          cacheDefault).len = (cs.getD i cacheDefault).len + seqLen ∧
      (∀ b h s d, s < (cs.getD i cacheDefault).len →
        ((runLayersCaches M useCache seqLen maskLen positionIds attnMask ls cs x).getD i
            cacheDefault).k b h s d = (cs.getD i cacheDefault).k b h s d ∧
          ((runLayersCaches M useCache seqLen maskLen positionIds attnMask ls cs x).getD i
            cacheDefault).v b h s d = (cs.getD i cacheDefault).v b h s d) := by
  intro ls
  induction ls with
  | nil => intro cs x i hi _; simp at hi
  | cons lw rest ih =>
      intro cs x i hi hic
      cases cs with
      | nil => simp at hic
      | cons c cs2 =>
          cases i with
          | zero =>
              refine ⟨rfl, ?_⟩
              intro b h s d hs
              simp only [runLayersCaches, List.getD_cons_zero] at hs ⊢
              constructor
              · simp only [layerKCat, selfAttnKCat, catSeq, if_pos hs]
              · simp only [layerVCat, selfAttnVCat, catSeq, if_pos hs]
          | succ i2 =>
              simp only [List.length_cons, Nat.succ_lt_succ_iff] at hi hic
              simpa only [runLayersCaches, List.getD_cons_succ] using
                ih cs2 (layerOut M lw useCache seqLen maskLen x positionIds attnMask c) i2 hi hic

theorem runLayersCaches_length (M : BuiltModel) (useCache : Bool) (seqLen maskLen : ℕ)
    (positionIds : ℕ → ℕ → ℕ) (attnMask : Mat) :
    ∀ (ls : List LayerWeights) (cs : List KVCache) (x : T3), ls.length ≤ cs.length →
      (runLayersCaches M useCache seqLen maskLen positionIds attnMask ls cs x).length =
        ls.length := by
  intro ls
  induction ls with
  | nil => intro cs x _; rfl
  | cons lw rest ih =>
      intro cs x hlen
      cases cs with
      | nil => simp at hlen
      | cons c cs2 =>
          simp only [List.length_cons, Nat.succ_le_succ_iff] at hlen
          simp only [runLayersCaches, List.length_cons, ih cs2 _ hlen]

/-- `N` successive use-cache-mode calls (one new position per call), each
threading the cache returned by the previous call into the next, with
per-step token ids, position ids, padding mask and mask width supplied by the
driver. -/
noncomputable def useCacheRun (M : BuiltModel) (W : ModelWeights) (batch : ℕ)
    (stepTokens stepPos : ℕ → ℕ → ℕ → ℕ) (stepMask : ℕ → Mat) (stepMaskLen : ℕ → ℕ)
    (cache0 : List KVCache) : ℕ → Option (List KVCache)
  | 0 => some cache0
  | n + 1 => do
      let c ← useCacheRun M W batch stepTokens stepPos stepMask stepMaskLen cache0 n
      let (_, c2) ← modelForward M W true batch 1 (stepMaskLen n) (stepTokens n) (stepPos n)
        (stepMask n) c
      some c2

/-- C3: every successful forward call extends each layer's cache sequence
length by exactly the number of new input positions (`seqLen`), and
therefore, starting from caches of sequence length `L`, the caches after `N`
successful single-token use-cache calls all have sequence length `L + N`. -/
theorem cache_extension_invariant :
    (∀ (M : BuiltModel) (W : ModelWeights) (useCache : Bool) (batch seqLen maskLen : ℕ)
        (tokens positionIds : ℕ → ℕ → ℕ) (attnMask : Mat) (cache : List KVCache)
        (p : T3 × List KVCache),
      modelForward M W useCache batch seqLen maskLen tokens positionIds attnMask cache =
        some p →
      ∀ i, i < W.layers.length → i < cache.length →
        (p.2.getD i cacheDefault).len = (cache.getD i cacheDefault).len + seqLen) ∧
    (∀ (M : BuiltModel) (W : ModelWeights) (batch : ℕ)
        (stepTokens stepPos : ℕ → ℕ → ℕ → ℕ) (stepMask : ℕ → Mat) (stepMaskLen : ℕ → ℕ)
        (cache0 : List KVCache) (L N : ℕ) (cs : List KVCache),
      useCacheRun M W batch stepTokens stepPos stepMask stepMaskLen cache0 N = some cs →
      (∀ e ∈ cache0, e.len = L) → ∀ e ∈ cs, e.len = L + N) := by
  have single : ∀ (M : BuiltModel) (W : ModelWeights) (useCache : Bool)
      (batch seqLen maskLen : ℕ) (tokens positionIds : ℕ → ℕ → ℕ) (attnMask : Mat)
      (cache : List KVCache) (p : T3 × List KVCache),
      modelForward M W useCache batch seqLen maskLen tokens positionIds attnMask cache =
        some p →
      ∀ i, i < W.layers.length → i < cache.length →
        (p.2.getD i cacheDefault).len = (cache.getD i cacheDefault).len + seqLen := by
    intro M W useCache batch seqLen maskLen tokens positionIds attnMask cache p h i hi hic
    obtain ⟨-, -, -, hp⟩ := modelForward_success M W useCache batch seqLen maskLen tokens
      positionIds attnMask cache p h
    rw [hp]
    exact (runLayersCaches_getD M useCache seqLen maskLen positionIds attnMask W.layers cache
      _ i hi hic).1
  refine ⟨single, ?_⟩
  intro M W batch stepTokens stepPos stepMask stepMaskLen cache0 L N
  induction N with
  | zero =>
      intro cs h hc0
      cases Option.some_inj.mp h
      simpa using hc0
  | succ n ih =>
      intro cs h hc0
      simp only [useCacheRun, Option.bind_eq_bind] at h
      cases hmid : useCacheRun M W batch stepTokens stepPos stepMask stepMaskLen cache0 n with
      | none => rw [hmid] at h; cases h
      | some cmid =>
          rw [hmid] at h
          simp only [Option.some_bind] at h
          cases hfw : modelForward M W true batch 1 (stepMaskLen n) (stepTokens n) (stepPos n)
            (stepMask n) cmid with
          | none => rw [hfw] at h; cases h
          | some pr =>
              rw [hfw] at h
              simp only [Option.some_bind] at h
              cases Option.some_inj.mp h
              have hmidLen : ∀ e ∈ cmid, e.len = L + n := ih cmid hmid hc0
              obtain ⟨-, -, hlen, hp⟩ := modelForward_success M W true batch 1 (stepMaskLen n)
                (stepTokens n) (stepPos n) (stepMask n) cmid pr hfw
              intro e he
              rw [hp] at he
              simp only [modelCaches] at he
              obtain ⟨⟨i, hiLt⟩, hie⟩ := List.mem_iff_get.mp he
              have hiW : i < W.layers.length := by
                rwa [runLayersCaches_length M true 1 (stepMaskLen n) (stepPos n) (stepMask n)
                  W.layers cmid _ hlen] at hiLt
              have hiC : i < cmid.length := lt_of_lt_of_le hiW hlen
              have := (runLayersCaches_getD M true 1 (stepMaskLen n) (stepPos n) (stepMask n)
                W.layers cmid (fun b s f => W.embedTokens (stepTokens n b s) f) i hiW hiC).1
              rw [List.getD_eq_get _ _ hiLt] at this
              rw [← hie] at *
              rw [this, List.getD_eq_get _ _ hiC]
              have : cmid.get ⟨i, hiC⟩ ∈ cmid := List.get_mem cmid i hiC
              rw [hmidLen _ this]
              omega

/-- C4: a forward call treats the caller-supplied cache tensors as
read-only values.  In this pure embedding the inputs are immutable by
construction (mirroring the `clone().detach()` copy the source takes before
`torch.cat`, which allocates a new tensor); the observable content of the
frame condition is that every returned extended cache agrees with the
corresponding incoming cache tensor at every previously cached position. -/
theorem cache_inputs_preserved (M : BuiltModel) (W : ModelWeights) (useCache : Bool)
    (batch seqLen maskLen : ℕ) (tokens positionIds : ℕ → ℕ → ℕ) (attnMask : Mat)
    (cache : List KVCache) (p : T3 × List KVCache)
    (h : modelForward M W useCache batch seqLen maskLen tokens positionIds attnMask cache =
      some p) :
    ∀ i, i < W.layers.length → i < cache.length →
      ∀ b hd s d, s < (cache.getD i cacheDefault).len →
        (p.2.getD i cacheDefault).k b hd s d = (cache.getD i cacheDefault).k b hd s d ∧
          (p.2.getD i cacheDefault).v b hd s d = (cache.getD i cacheDefault).v b hd s d := by
  intro i hi hic b hd s d hs
  obtain ⟨-, -, -, hp⟩ := modelForward_success M W useCache batch seqLen maskLen tokens
    positionIds attnMask cache p h
  rw [hp]
  exact (runLayersCaches_getD M useCache seqLen maskLen positionIds attnMask W.layers cache
    _ i hi hic).2 b hd s d hs

/-! ### Concrete instances used by witnesses and counterexamples -/

/-- A one-layer configuration with every dimension equal to 1, rms
normalization, layer epsilon 1 and score scale 1 (scale type "HeadDim",
head dim 1). -/
noncomputable def tinyM : BuiltModel :=
  ⟨1, 3, 1, 1, 1, 1, NormKind.rms, 1, 1e-5, 1⟩

/-- Degenerate layer weights: zero query projection (so all raw attention
scores vanish), identity (1×1) key/value/output projections, zero MLP. -/
noncomputable def tinyLayer : LayerWeights :=
  ⟨fun _ => 1, fun _ => 1, ⟨fun _ _ => 0, fun _ _ => 1, fun _ _ => 1, fun _ _ => 1⟩,
    ⟨fun _ _ => 0, fun _ _ => 0, fun _ _ => 0⟩⟩

/-- One-layer weights: the embedding maps token id `t` to the scalar `t`,
final norm weight 1, identity lm head. -/
noncomputable def tinyW : ModelWeights :=
  ⟨fun t _ => (t : ℝ), [tinyLayer], fun _ => 1, fun _ _ => 1⟩

/-- A nonempty concrete cache entry of sequence length 1. -/
noncomputable def tinyCache1 : KVCache := ⟨1, fun _ _ _ _ => 5, fun _ _ _ _ => 7⟩

theorem cache_extension_invariant_witness :
    ((modelCaches tinyM tinyW true 1 1 (fun _ _ => 0) (fun _ _ => 0) (fun _ _ => 1)
        [cacheDefault]).getD 0 cacheDefault).len =
      (([cacheDefault] : List KVCache).getD 0 cacheDefault).len + 1 :=
  cache_extension_invariant.1 tinyM tinyW true 1 1 1 (fun _ _ => 0) (fun _ _ => 0)
    (fun _ _ => 1) [cacheDefault]
    (modelLogits tinyM tinyW true 1 1 (fun _ _ => 0) (fun _ _ => 0) (fun _ _ => 1)
        [cacheDefault],
      modelCaches tinyM tinyW true 1 1 (fun _ _ => 0) (fun _ _ => 0) (fun _ _ => 1)
        [cacheDefault])
    (modelForward_eq tinyM tinyW true 1 1 1 (fun _ _ => 0) (fun _ _ => 0) (fun _ _ => 1)
      [cacheDefault] (by decide) (by decide) (by decide))
    0 (by decide) (by decide)

theorem cache_inputs_preserved_witness :
    ((modelCaches tinyM tinyW true 1 2 (fun _ _ => 0) (fun _ _ => 1) (fun _ _ => 1)
          [tinyCache1]).getD 0 cacheDefault).k 0 0 0 0 =
        (([tinyCache1] : List KVCache).getD 0 cacheDefault).k 0 0 0 0 ∧
      ((modelCaches tinyM tinyW true 1 2 (fun _ _ => 0) (fun _ _ => 1) (fun _ _ => 1)
          [tinyCache1]).getD 0 cacheDefault).v 0 0 0 0 =
        (([tinyCache1] : List KVCache).getD 0 cacheDefault).v 0 0 0 0 :=
  cache_inputs_preserved tinyM tinyW true 1 1 2 (fun _ _ => 0) (fun _ _ => 1) (fun _ _ => 1)
    [tinyCache1]
    (modelLogits tinyM tinyW true 1 2 (fun _ _ => 0) (fun _ _ => 1) (fun _ _ => 1)
        [tinyCache1],
      modelCaches tinyM tinyW true 1 2 (fun _ _ => 0) (fun _ _ => 1) (fun _ _ => 1)
        [tinyCache1])
    (modelForward_eq tinyM tinyW true 1 1 2 (fun _ _ => 0) (fun _ _ => 1) (fun _ _ => 1)
      [tinyCache1] (by decide) (by decide) (by decide))
    0 (by decide) (by decide) 0 0 0 0 (by decide)

/-! ### Construction-time validation (C8, C9) -/

theorem normKindOfString_isSome (s : String) :
    (normKindOfString s).isSome ↔ (s = "layer_norm" ∨ s = "rms") := by
  by_cases h1 : s = "layer_norm" <;> by_cases h2 : s = "rms" <;>
    simp [normKindOfString, h1, h2]

theorem selfAttnScale_isSome (hiddenSize numHeads : ℕ) (scaleType : String)
    (hh : numHeads ≠ 0) :
    (selfAttnScale hiddenSize numHeads scaleType).isSome ↔
      (scaleType = "HeadDim" ∨ scaleType = "SquareRootHeadDim") := by
  by_cases h1 : scaleType = "HeadDim" <;> by_cases h2 : scaleType = "SquareRootHeadDim" <;>
    simp [selfAttnScale, h1, h2, hh]

theorem mkTransformerLayer_isSome (hiddenSize numHeads : ℕ) (scaleType normType : String)
    (hh : numHeads ≠ 0) :
    (mkTransformerLayer hiddenSize numHeads scaleType normType).isSome ↔
      ((normType = "layer_norm" ∨ normType = "rms") ∧
        (scaleType = "HeadDim" ∨ scaleType = "SquareRootHeadDim")) := by
  rw [← normKindOfString_isSome, ← selfAttnScale_isSome hiddenSize numHeads scaleType hh]
  cases hn : normKindOfString normType with
  | none => simp [mkTransformerLayer, hn]
  | some nk =>
      cases hsc : selfAttnScale hiddenSize numHeads scaleType with
      | none => simp [mkTransformerLayer, hn, hsc]
      | some sc => simp [mkTransformerLayer, hn, hsc]

theorem mkLayerStack_succ (hiddenSize numHeads : ℕ) (scaleType normType : String) (n : ℕ) :
    mkLayerStack hiddenSize numHeads scaleType normType (n + 1) =
      (mkTransformerLayer hiddenSize numHeads scaleType normType).bind
        (fun l => (mkLayerStack hiddenSize numHeads scaleType normType n).bind
          (fun rest => some (l :: rest))) := rfl

theorem mkLayerStack_isSome (hiddenSize numHeads : ℕ) (scaleType normType : String) :
    ∀ n : ℕ, (mkLayerStack hiddenSize numHeads scaleType normType (n + 1)).isSome ↔
      (mkTransformerLayer hiddenSize numHeads scaleType normType).isSome := by
  intro n
  induction n with
  | zero =>
      rw [mkLayerStack_succ]
      cases hl : mkTransformerLayer hiddenSize numHeads scaleType normType with
      | none => simp
      | some l => simp [mkLayerStack]
  | succ m ih =>
      rw [mkLayerStack_succ]
      cases hl : mkTransformerLayer hiddenSize numHeads scaleType normType with
      | none => simp
      | some l =>
          rw [hl] at ih
          simp only [Option.isSome_some, iff_true] at ih
          obtain ⟨rest, hrest⟩ := Option.isSome_iff_exists.mp ih
          simp [hrest]

/-- C8 (amended): provided at least one layer is constructed
(`n_layers ≥ 1`, so that a `SelfAttention` module is actually built) and
`num_heads > 0` (so `int(hidden_size / num_heads)` does not divide by zero),
construction succeeds exactly when the normalization kind is one of
{"layer_norm", "rms"} and the score-scale kind is one of
{"HeadDim", "SquareRootHeadDim"}; unrecognized kinds fail at construction
time, before any forward pass. -/
theorem construction_fails_fast (nLayers vocabSize hiddenSize intermediateSize numHeads
    numKeyValueHeads : ℕ) (scaleType normType : String) (epsilon : ℝ)
    (hl : 0 < nLayers) (hh : 0 < numHeads) :
    (mkDecoderModel nLayers vocabSize hiddenSize intermediateSize numHeads numKeyValueHeads
        scaleType normType epsilon).isSome ↔
      ((normType = "layer_norm" ∨ normType = "rms") ∧
        (scaleType = "HeadDim" ∨ scaleType = "SquareRootHeadDim")) := by
  have hh' : numHeads ≠ 0 := by omega
  obtain ⟨n, rfl⟩ : ∃ n, nLayers = n + 1 := ⟨nLayers - 1, by omega⟩
  have hstack := mkLayerStack_isSome hiddenSize numHeads scaleType normType n
  have hlayer := mkTransformerLayer_isSome hiddenSize numHeads scaleType normType hh'
  cases hn : normKindOfString normType with
  | none =>
      have hno : ¬ (normType = "layer_norm" ∨ normType = "rms") := by
        rw [← normKindOfString_isSome]
        simp [hn]
      simp [mkDecoderModel, hn, hno]
  | some nk =>
      cases hs : mkLayerStack hiddenSize numHeads scaleType normType (n + 1) with
      | none =>
          have hno : ¬ ((normType = "layer_norm" ∨ normType = "rms") ∧
              (scaleType = "HeadDim" ∨ scaleType = "SquareRootHeadDim")) := by
            rw [← hlayer, ← hstack]
            simp [hs]
          simp [mkDecoderModel, hn, hs, hno]
      | some ls =>
          have hyes : (normType = "layer_norm" ∨ normType = "rms") ∧
              (scaleType = "HeadDim" ∨ scaleType = "SquareRootHeadDim") := by
            rw [← hlayer, ← hstack]
            simp [hs]
          simp [mkDecoderModel, hn, hs, hyes]

theorem construction_fails_fast_witness :
    (mkDecoderModel 1 3 1 1 1 1 "HeadDim" "rms" 1).isSome ↔
      ((("rms" : String) = "layer_norm" ∨ ("rms" : String) = "rms") ∧
        (("HeadDim" : String) = "HeadDim" ∨ ("HeadDim" : String) = "SquareRootHeadDim")) :=
  construction_fails_fast 1 3 1 1 1 1 "HeadDim" "rms" 1 (by decide) (by decide)

/-- C8 counterexample: with `n_layers = 0` the construction loop never
builds a `SelfAttention`, so an unrecognized score-scale kind ("bogus") is
accepted at construction time — the claim that it raises an error for every
configuration is false. -/
theorem construction_zero_layers_accepts_bad_scale :
    (mkDecoderModel 0 1 1 1 1 1 "bogus" "rms" 1).isSome = true := rfl

/-- C9: `Model.__init__` constructs the final normalization with the literal
`eps=1e-5`, ignoring the `epsilon` construction argument, while every
transformer layer's input and post-attention normalizations receive the
configured `epsilon`.  (`modelForward` applies the final normalization with
`M.finalNormEps` and the per-layer normalizations with `M.epsilon`, and
`rmsNormForward`/`layerNormForward` divide by `sqrt (variance + eps)`.) -/
theorem final_norm_eps_fixed (nLayers vocabSize hiddenSize intermediateSize numHeads
    numKeyValueHeads : ℕ) (scaleType normType : String) (epsilon : ℝ) (M : BuiltModel)
    (h : mkDecoderModel nLayers vocabSize hiddenSize intermediateSize numHeads
      numKeyValueHeads scaleType normType epsilon = some M) :
    M.finalNormEps = 1e-5 ∧ M.epsilon = epsilon := by
  unfold mkDecoderModel at h
  cases hn : normKindOfString normType with
  | none => rw [hn] at h; cases h
  | some nk =>
      rw [hn] at h
      cases hs : mkLayerStack hiddenSize numHeads scaleType normType nLayers with
      | none => rw [hs] at h; cases h
      | some ls =>
          rw [hs] at h
          cases Option.some_inj.mp h
          exact ⟨rfl, rfl⟩

theorem final_norm_eps_fixed_witness :
    (⟨1, 3, 1, 1, 1, 1, NormKind.rms, 2, 1e-5, resolvedScale 1 1 "HeadDim"⟩ :
        BuiltModel).finalNormEps = 1e-5 ∧
      (⟨1, 3, 1, 1, 1, 1, NormKind.rms, 2, 1e-5, resolvedScale 1 1 "HeadDim"⟩ :
        BuiltModel).epsilon = 2 :=
  final_norm_eps_fixed 1 3 1 1 1 1 "HeadDim" "rms" 2
    ⟨1, 3, 1, 1, 1, 1, NormKind.rms, 2, 1e-5, resolvedScale 1 1 "HeadDim"⟩ rfl

/-- C10: the rotary tables cover positions 0 through 4095 only
(`max_seq_len = 4096` is hardcoded in `TransformerLayer.__init__`), so — for
a model with at least one layer, valid token ids and a cache entry per
layer — a forward call returns a result exactly when every supplied position
id is below 4096; a position id of 4096 or more makes the gather
`cos[position_ids]` fail and the forward pass returns no result. -/
theorem position_ids_bounded (M : BuiltModel) (W : ModelWeights) (useCache : Bool)
    (batch seqLen maskLen : ℕ) (tokens positionIds : ℕ → ℕ → ℕ) (attnMask : Mat)
    (cache : List KVCache)
    (htok : tokensOk batch seqLen M.vocabSize tokens)
    (hlen : W.layers.length ≤ cache.length)
    (hnl : W.layers ≠ []) :
    (modelForward M W useCache batch seqLen maskLen tokens positionIds attnMask
        cache).isSome = true ↔
      ∀ b < batch, ∀ s < seqLen, positionIds b s < 4096 := by
  constructor
  · intro hs
    obtain ⟨p, hp⟩ := Option.isSome_iff_exists.mp hs
    obtain ⟨-, hpos, -, -⟩ := modelForward_success M W useCache batch seqLen maskLen tokens
      positionIds attnMask cache p hp
    rcases hpos with hnil | hpos
    · exact absurd hnil hnl
    · exact hpos
  · intro hpos
    rw [modelForward_eq M W useCache batch seqLen maskLen tokens positionIds attnMask cache
      htok hpos hlen]
    rfl

theorem position_ids_bounded_witness :
    (modelForward tinyM tinyW false 1 1 1 (fun _ _ => 0) (fun _ _ => 4096) (fun _ _ => 1)
        [cacheDefault]).isSome = true ↔
      ∀ b < 1, ∀ s < 1, (fun (_ _ : ℕ) => 4096) b s < 4096 :=
  position_ids_bounded tinyM tinyW false 1 1 1 (fun _ _ => 0) (fun _ _ => 4096)
    (fun _ _ => 1) [cacheDefault] (by decide) (by decide)
    (show tinyW.layers ≠ [] from List.cons_ne_nil tinyLayer [])

/-! ### Exact-arithmetic causality analysis (C1, C2)

The additive mask maps blocked positions to a -10000 score offset, not to
minus infinity, so after the softmax every blocked position keeps a strictly
positive weight of relative size `exp (-10000)`.  In exact real arithmetic
this makes outputs depend (by an exp(-10000)-sized term) on tokens the causal
mask is meant to hide. -/

/-- The scalar function computed by a one-dimensional rms normalization,
`x ↦ x / sqrt (x² + c)`, is strictly monotone (hence injective) for any
positive `c`. -/
theorem rmsScalarStrictMono (c : ℝ) (hc : 0 < c) :
    StrictMono (fun x : ℝ => x * (Real.sqrt (x ^ 2 + c))⁻¹) := by
  intro a b hab
  have ha2 : (0:ℝ) < a ^ 2 + c := by positivity
  have hb2 : (0:ℝ) < b ^ 2 + c := by positivity
  have hsa : 0 < Real.sqrt (a ^ 2 + c) := Real.sqrt_pos.mpr ha2
  have hsb : 0 < Real.sqrt (b ^ 2 + c) := Real.sqrt_pos.mpr hb2
  have hsa2 : Real.sqrt (a ^ 2 + c) ^ 2 = a ^ 2 + c := Real.sq_sqrt ha2.le
  have hsb2 : Real.sqrt (b ^ 2 + c) ^ 2 = b ^ 2 + c := Real.sq_sqrt hb2.le
  have key : a * Real.sqrt (b ^ 2 + c) < b * Real.sqrt (a ^ 2 + c) := by
    rcases le_or_lt 0 a with ha | ha
    · have hb : 0 < b := lt_of_le_of_lt ha hab
      have hsq : (a * Real.sqrt (b ^ 2 + c)) ^ 2 < (b * Real.sqrt (a ^ 2 + c)) ^ 2 := by
        rw [mul_pow, mul_pow, hsa2, hsb2]
        nlinarith [mul_pos hc (mul_pos (sub_pos.mpr hab) (by linarith : (0:ℝ) < a + b))]
      exact lt_of_pow_lt_pow_left 2 (mul_pos hb hsa).le hsq
    · rcases le_or_lt 0 b with hb | hb
      · exact lt_of_lt_of_le (mul_neg_of_neg_of_pos ha hsb) (mul_nonneg hb hsa.le)
      · have hsq : (-b * Real.sqrt (a ^ 2 + c)) ^ 2 < (-a * Real.sqrt (b ^ 2 + c)) ^ 2 := by
          rw [mul_pow, mul_pow, hsa2, hsb2]
          nlinarith [mul_pos hc (mul_pos (sub_pos.mpr hab) (by linarith : (0:ℝ) < -(a + b)))]
        have := lt_of_pow_lt_pow_left 2 (mul_pos (neg_pos.mpr ha) hsb).le hsq
        linarith
  have := (div_lt_div_iff hsa hsb).mpr key
  simpa [div_eq_mul_inv] using this

/-- C2 (amended): in no-cache mode with an all-ones padding mask
(`maskLen = seqLen`, empty cache) the additive bias at query row `i` is 0 on
columns `j ≤ i` and -10000 on columns `j > i` — the causal pattern is
enforced only through a finite -10000 offset — and the softmax assigns every
column (blocked ones included) a strictly positive weight.  Consequently
position `i`'s output is suppressed-but-not-independent of later tokens: the
exact-invariance claim fails (see the counterexample), and invariance holds
only up to `exp (-10000)`-weighted contributions of the future columns. -/
theorem causal_mask_suppresses_future (score : T4) (seqLen numHeads : ℕ) (b h i j : ℕ) :
    (applyMaskForward false score (fun _ _ => 1) seqLen numHeads seqLen b h i j =
      score b h i j + (if j ≤ i then 0 else (-10000 : ℝ))) ∧
    (∀ (n : ℕ) (v : Vec) (k : ℕ), 0 < n → 0 < softmaxRow n v k) := by
  constructor
  · unfold applyMaskForward
    norm_num
  · intro n v k hn
    unfold softmaxRow
    apply div_pos (Real.exp_pos _)
    exact Finset.sum_pos (fun k2 _ => Real.exp_pos _)
      (Finset.nonempty_range_iff.mpr (by omega))

theorem causal_mask_suppresses_future_witness :
    ((applyMaskForward false (fun _ _ _ _ => 0) (fun _ _ => 1) 2 1 2 0 0 0 1 =
        (fun (_ _ _ _ : ℕ) => (0 : ℝ)) 0 0 0 1 +
          (if (1 : ℕ) ≤ 0 then 0 else (-10000 : ℝ))) ∧
      (∀ (n : ℕ) (v : Vec) (k : ℕ), 0 < n → 0 < softmaxRow n v k)) ∧
      0 < softmaxRow 2 (fun _ => 0) 1 :=
  ⟨causal_mask_suppresses_future (fun _ _ _ _ => 0) 2 1 0 0 0 1,
    (causal_mask_suppresses_future (fun _ _ _ _ => 0) 2 1 0 0 0 1).2 2 (fun _ => 0) 1
      (by decide)⟩

/-- C2 counterexample: a concrete one-layer scalar model (zero query
projection, identity key/value/output projections, rms norms, all-ones
padding mask, empty cache, no-cache mode) where changing only the token at
position 1 changes the logits at position 0: the -10000 causal bias leaves
softmax weight `exp (-10000) / (1 + exp (-10000)) > 0` on the future column,
so position 0's output is not numerically invariant to later tokens. -/
theorem no_cache_not_strictly_causal :
    (modelForward tinyM tinyW false 1 2 2 (fun _ _ => 1) (fun _ s => s) (fun _ _ => 1)
        [cacheDefault]).map (fun p => p.1 0 0 0) ≠
      (modelForward tinyM tinyW false 1 2 2 (fun _ s => if s = 0 then 1 else 2) (fun _ s => s)
        (fun _ _ => 1) [cacheDefault]).map (fun p => p.1 0 0 0) := by
  rw [modelForward_eq tinyM tinyW false 1 2 2 (fun _ _ => 1) (fun _ s => s) (fun _ _ => 1)
      [cacheDefault] (by decide) (by decide) (by decide),
    modelForward_eq tinyM tinyW false 1 2 2 (fun _ s => if s = 0 then 1 else 2) (fun _ s => s)
      (fun _ _ => 1) [cacheDefault] (by decide) (by decide) (by decide)]
  simp only [ne_eq, Option.map_some', Option.some.injEq]
  intro heq
  simp only [modelLogits, modelHidden, runLayersOut, layerOut, layerNormedIn, selfAttnOut,
    attnQueryRoped, attnKeyRoped, attnValue, selfAttnKCat, selfAttnVCat, catSeq,
    applyRopeVal, rotateHalf, applyMaskForward, softmaxRow, broadcastKeyValue, mlpForward,
    linearNoBias, applyNorm, rmsNormForward, tinyM, tinyW, tinyLayer, cacheDefault,
    Finset.sum_range_succ, Finset.sum_range_zero] at heq
  norm_num [catSeq, attnValue, layerNormedIn, applyNorm, rmsNormForward, linearNoBias,
    tinyM, tinyLayer, Finset.sum_range_succ] at heq
  have hy := (rmsScalarStrictMono (1 / 100000) (by norm_num)).injective heq
  have hE : (0:ℝ) < Real.exp (-10000) := Real.exp_pos _
  have h1E : (0:ℝ) < 1 + Real.exp (-10000) := by positivity
  have hu := rmsScalarStrictMono 1 one_pos (show (1:ℝ) < 2 by norm_num)
  norm_num at hu
  have hcanc : Real.exp (-10000) / (1 + Real.exp (-10000)) * (Real.sqrt 2)⁻¹ =
      Real.exp (-10000) / (1 + Real.exp (-10000)) * (2 * (Real.sqrt 5)⁻¹) := by
    linarith
  have := mul_left_cancel₀ (ne_of_gt (div_pos hE h1E)) hcanc
  linarith

/-- A two-layer configuration, otherwise identical to `tinyM`. -/
noncomputable def tinyM2 : BuiltModel :=
  ⟨2, 3, 1, 1, 1, 1, NormKind.rms, 1, 1e-5, 1⟩

/-- Two-layer weights stacking `tinyLayer` twice. -/
noncomputable def tiny2W : ModelWeights :=
  ⟨fun t _ => (t : ℝ), [tinyLayer, tinyLayer], fun _ => 1, fun _ _ => 1⟩


/-- For `tinyLayer` (zero query projection, identity 1×1 key/value/output
projections, zero MLP) on a model with all dimensions 1, rms normalization
and layer epsilon 1, the layer output collapses: raw scores are zero, so the
output is the input plus the softmax of the mask bias row applied to the
concatenated values (cached values, then the rms-normalized inputs). -/
theorem tinyLayerOut (M : BuiltModel) (hh : M.hiddenSize = 1) (hnh : M.numHeads = 1)
    (hkv : M.numKeyValueHeads = 1) (hnk : M.normKind = NormKind.rms) (heps : M.epsilon = 1)
    (useCache : Bool) (seqLen maskLen : ℕ) (x : T3) (pos : ℕ → ℕ → ℕ) (c : KVCache)
    (b i : ℕ) :
    layerOut M tinyLayer useCache seqLen maskLen x pos (fun _ _ => 1) c b i 0 =
      x b i 0 + ∑ j in Finset.range (c.len + seqLen),
        softmaxRow (c.len + seqLen)
          (fun j2 => if useCache = true then 0 else
            if j2 ≤ maskLen - seqLen + i then 0 else (-10000 : ℝ)) j *
        (if j < c.len then c.v b 0 j 0
         else x b (j - c.len) 0 * (Real.sqrt (x b (j - c.len) 0 ^ 2 + 1))⁻¹) := by
  have hrow : applyMaskForward useCache (fun _ _ _ _ => (0:ℝ)) (fun _ _ => 1) seqLen 1
      maskLen b 0 i = fun j2 => if useCache = true then 0 else
        if j2 ≤ maskLen - seqLen + i then 0 else (-10000 : ℝ) := by
    funext j2
    simp only [applyMaskForward]
    norm_num
  have hval : ∀ j, catSeq c.len c.v (attnValue M tinyLayer.attn (layerNormedIn M tinyLayer x))
      b 0 j 0 = if j < c.len then c.v b 0 j 0
        else x b (j - c.len) 0 * (Real.sqrt (x b (j - c.len) 0 ^ 2 + 1))⁻¹ := by
    intro j
    simp only [catSeq, attnValue, layerNormedIn, applyNorm, rmsNormForward, linearNoBias,
      tinyLayer, hh, hnk, heps, Finset.sum_range_succ, Finset.sum_range_zero]
    norm_num
  simp only [layerOut, selfAttnOut, layerNormedIn, attnQueryRoped, selfAttnKCat,
    selfAttnVCat, applyRopeVal, rotateHalf, broadcastKeyValue,
    mlpForward, linearNoBias, applyNorm, rmsNormForward, tinyLayer, hh, hnh, hkv, hnk, heps,
    Finset.sum_range_succ, Finset.sum_range_zero]
  norm_num
  simp only [tinyLayer] at hval
  refine Finset.sum_congr rfl (fun j hj => ?_)
  rw [hrow, hval j, mul_ite]


/-- With hidden size 1, rms normalization, final norm weight 1 and identity
lm head, the logit at feature 0 is the final rms normalization of the scalar
hidden state (dividing by `sqrt (h² + finalNormEps)`). -/
theorem tinyModelLogits (M : BuiltModel) (W : ModelWeights) (hh : M.hiddenSize = 1)
    (hnk : M.normKind = NormKind.rms) (hfw : W.finalNormWeight = fun _ => 1)
    (hlm : W.lmHead = fun _ _ => 1) (useCache : Bool) (seqLen maskLen : ℕ)
    (tokens positionIds : ℕ → ℕ → ℕ) (attnMask : Mat) (cache : List KVCache) (b s : ℕ) :
    modelLogits M W useCache seqLen maskLen tokens positionIds attnMask cache b s 0 =
      modelHidden M W useCache seqLen maskLen tokens positionIds attnMask cache b s 0 *
        (Real.sqrt (modelHidden M W useCache seqLen maskLen tokens positionIds attnMask cache
          b s 0 ^ 2 + M.finalNormEps))⁻¹ := by
  simp only [modelLogits, linearNoBias, applyNorm, hh, hnk, hfw, hlm, rmsNormForward,
    Finset.sum_range_succ, Finset.sum_range_zero]
  norm_num

/-- The first slot of the value cache a `tinyLayer` returns from an empty
cache holds the rms-normalized input at position 0. -/
theorem tinyLayerVCatTop (x : T3) (b : ℕ) :
    layerVCat tinyM2 tinyLayer x ⟨0, fun _ _ _ _ => 0, fun _ _ _ _ => 0⟩ b 0 0 0 =
      x b 0 0 * (Real.sqrt (x b 0 0 ^ 2 + 1))⁻¹ := by
  simp only [layerVCat, selfAttnVCat, catSeq, cacheDefault, attnValue, layerNormedIn,
    applyNorm, rmsNormForward, linearNoBias, tinyLayer, tinyM2,
    Finset.sum_range_succ, Finset.sum_range_zero]
  norm_num


/-- C1 counterexample: for a two-layer model, processing tokens [1, 2] in one
no-cache call and processing them one at a time through use-cache mode
(threading the cache) give different final-position logits in exact
arithmetic.  Reason: in the no-cache pass, layer 1's output at position 0
receives softmax weight `exp (-10000) / (1 + exp (-10000)) > 0` from the
future token (the causal bias is -10000, not -∞), so layer 2's cached values
differ between the two modes, which propagates to the final logits. -/
theorem cache_mode_exact_equality_fails :
    (modelForward tinyM2 tiny2W false 1 2 2 (fun _ s => if s = 0 then 1 else 2) (fun _ s => s)
        (fun _ _ => 1) [cacheDefault, cacheDefault]).map (fun p => p.1 0 1 0) ≠
      ((modelForward tinyM2 tiny2W true 1 1 1 (fun _ _ => 1) (fun _ _ => 0) (fun _ _ => 1)
          [cacheDefault, cacheDefault]).bind
        (fun p => modelForward tinyM2 tiny2W true 1 1 2 (fun _ _ => 2) (fun _ _ => 1)
          (fun _ _ => 1) p.2)).map (fun p => p.1 0 0 0) := by
  have hlen2 : tiny2W.layers.length ≤
      (modelCaches tinyM2 tiny2W true 1 1 (fun _ _ => 1) (fun _ _ => 0) (fun _ _ => 1)
        [cacheDefault, cacheDefault]).length := by
    rw [modelCaches, runLayersCaches_length tinyM2 true 1 1 (fun _ _ => 0) (fun _ _ => 1)
      tiny2W.layers [cacheDefault, cacheDefault] _ (by decide)]
  rw [modelForward_eq tinyM2 tiny2W false 1 2 2 (fun _ s => if s = 0 then 1 else 2)
      (fun _ s => s) (fun _ _ => 1) [cacheDefault, cacheDefault] (by decide) (by decide)
      (by decide),
    modelForward_eq tinyM2 tiny2W true 1 1 1 (fun _ _ => 1) (fun _ _ => 0) (fun _ _ => 1)
      [cacheDefault, cacheDefault] (by decide) (by decide) (by decide)]
  simp only [Option.some_bind]
  rw [modelForward_eq tinyM2 tiny2W true 1 1 2 (fun _ _ => 2) (fun _ _ => 1) (fun _ _ => 1)
      (modelCaches tinyM2 tiny2W true 1 1 (fun _ _ => 1) (fun _ _ => 0) (fun _ _ => 1)
        [cacheDefault, cacheDefault]) (by decide) (by decide) hlen2]
  simp only [ne_eq, Option.map_some', Option.some.injEq]
  intro heq
  rw [tinyModelLogits tinyM2 tiny2W rfl rfl rfl rfl false 2 2
      (fun _ s => if s = 0 then 1 else 2) (fun _ s => s) (fun _ _ => 1)
      [cacheDefault, cacheDefault] 0 1,
    tinyModelLogits tinyM2 tiny2W rfl rfl rfl rfl true 1 2 (fun _ _ => 2) (fun _ _ => 1)
      (fun _ _ => 1)
      (modelCaches tinyM2 tiny2W true 1 1 (fun _ _ => 1) (fun _ _ => 0) (fun _ _ => 1)
        [cacheDefault, cacheDefault]) 0 0] at heq
  simp only [modelHidden, modelCaches, runLayersOut, runLayersCaches,
    show tiny2W.layers = [tinyLayer, tinyLayer] from rfl] at heq
  rw [tinyLayerOut tinyM2 rfl rfl rfl rfl rfl false 2 2
      (layerOut tinyM2 tinyLayer false 2 2
        (fun b s f => tiny2W.embedTokens (if s = 0 then 1 else 2) f) (fun _ s => s)
        (fun _ _ => 1) cacheDefault) (fun _ s => s) cacheDefault 0 1,
    tinyLayerOut tinyM2 rfl rfl rfl rfl rfl true 1 2
      (layerOut tinyM2 tinyLayer true 1 2 (fun b s f => tiny2W.embedTokens 2 f)
        (fun _ _ => 1) (fun _ _ => 1)
        ⟨cacheDefault.len + 1,
          layerKCat tinyM2 tinyLayer (fun b s f => tiny2W.embedTokens 1 f) (fun _ _ => 0)
            cacheDefault,
          layerVCat tinyM2 tinyLayer (fun b s f => tiny2W.embedTokens 1 f) cacheDefault⟩)
      (fun _ _ => 1)
      ⟨cacheDefault.len + 1,
        layerKCat tinyM2 tinyLayer
          (layerOut tinyM2 tinyLayer true 1 1 (fun b s f => tiny2W.embedTokens 1 f)
            (fun _ _ => 0) (fun _ _ => 1) cacheDefault) (fun _ _ => 0) cacheDefault,
        layerVCat tinyM2 tinyLayer
          (layerOut tinyM2 tinyLayer true 1 1 (fun b s f => tiny2W.embedTokens 1 f)
            (fun _ _ => 0) (fun _ _ => 1) cacheDefault) cacheDefault⟩ 0 0] at heq
  norm_num [cacheDefault, Finset.sum_range_succ, Finset.sum_range_zero] at heq
  rw [tinyLayerOut tinyM2 rfl rfl rfl rfl rfl false 2 2
      (fun b s f => tiny2W.embedTokens (if s = 0 then 1 else 2) f) (fun _ s => s)
      ⟨0, fun _ _ _ _ => 0, fun _ _ _ _ => 0⟩ 0 0,
    tinyLayerOut tinyM2 rfl rfl rfl rfl rfl false 2 2
      (fun b s f => tiny2W.embedTokens (if s = 0 then 1 else 2) f) (fun _ s => s)
      ⟨0, fun _ _ _ _ => 0, fun _ _ _ _ => 0⟩ 0 1,
    tinyLayerOut tinyM2 rfl rfl rfl rfl rfl true 1 2 (fun b s f => tiny2W.embedTokens 2 f)
      (fun _ _ => 1)
      ⟨1, layerKCat tinyM2 tinyLayer (fun b s f => tiny2W.embedTokens 1 f) (fun _ _ => 0)
          ⟨0, fun _ _ _ _ => 0, fun _ _ _ _ => 0⟩,
        layerVCat tinyM2 tinyLayer (fun b s f => tiny2W.embedTokens 1 f)
          ⟨0, fun _ _ _ _ => 0, fun _ _ _ _ => 0⟩⟩ 0 0,
    tinyLayerVCatTop (layerOut tinyM2 tinyLayer true 1 1 (fun b s f => tiny2W.embedTokens 1 f)
      (fun _ _ => 0) (fun _ _ => 1) ⟨0, fun _ _ _ _ => 0, fun _ _ _ _ => 0⟩) 0,
    tinyLayerOut tinyM2 rfl rfl rfl rfl rfl true 1 1 (fun b s f => tiny2W.embedTokens 1 f)
      (fun _ _ => 0) ⟨0, fun _ _ _ _ => 0, fun _ _ _ _ => 0⟩ 0 0] at heq
  norm_num [Finset.sum_range_succ, Finset.sum_range_zero] at heq
  rw [tinyLayerVCatTop (fun b s f => tiny2W.embedTokens 1 f) 0] at heq
  norm_num [softmaxRow, Finset.sum_range_succ, Finset.sum_range_zero,
    show ∀ f, tiny2W.embedTokens 1 f = 1 from fun f => by norm_num [tiny2W],
    show ∀ f, tiny2W.embedTokens 2 f = 2 from fun f => by norm_num [tiny2W],
    show tinyM2.finalNormEps = 1 / 100000 from by norm_num [tinyM2]] at heq
  have hZ := (rmsScalarStrictMono (1 / 100000) (by norm_num)).injective heq
  have hE : (0:ℝ) < Real.exp (-10000) := Real.exp_pos _
  have h1E : (0:ℝ) < 1 + Real.exp (-10000) := by positivity
  have hu := rmsScalarStrictMono 1 one_pos (show (1:ℝ) < 2 by norm_num)
  norm_num at hu
  have hua :
      (1 + ((1 + Real.exp (-10000))⁻¹ * (Real.sqrt 2)⁻¹ +
          Real.exp (-10000) / (1 + Real.exp (-10000)) * (2 * (Real.sqrt 5)⁻¹))) *
        (Real.sqrt ((1 + ((1 + Real.exp (-10000))⁻¹ * (Real.sqrt 2)⁻¹ +
          Real.exp (-10000) / (1 + Real.exp (-10000)) * (2 * (Real.sqrt 5)⁻¹))) ^ 2 + 1))⁻¹ =
      (1 + (Real.sqrt 2)⁻¹) * (Real.sqrt ((1 + (Real.sqrt 2)⁻¹) ^ 2 + 1))⁻¹ := by
    linarith
  have hab := (rmsScalarStrictMono 1 one_pos).injective hua
  have h5 : (1 + Real.exp (-10000))⁻¹ * (Real.sqrt 2)⁻¹ +
      Real.exp (-10000) / (1 + Real.exp (-10000)) * (2 * (Real.sqrt 5)⁻¹) =
      (Real.sqrt 2)⁻¹ := by linarith
  have hmul := congrArg (fun x => (1 + Real.exp (-10000)) * x) h5
  simp only [mul_add] at hmul
  rw [mul_inv_cancel_left₀ (ne_of_gt h1E)] at hmul
  have hfix : (1 + Real.exp (-10000)) *
      (Real.exp (-10000) / (1 + Real.exp (-10000)) * (2 * (Real.sqrt 5)⁻¹)) =
      Real.exp (-10000) * (2 * (Real.sqrt 5)⁻¹) := by
    field_simp
    ring
  rw [hfix] at hmul
  have hr : (1 + Real.exp (-10000)) * (Real.sqrt 2)⁻¹ =
      (Real.sqrt 2)⁻¹ + Real.exp (-10000) * (Real.sqrt 2)⁻¹ := by ring
  rw [hr] at hmul
  have hcanc : Real.exp (-10000) * (2 * (Real.sqrt 5)⁻¹) =
      Real.exp (-10000) * (Real.sqrt 2)⁻¹ := by linarith
  have := mul_left_cancel₀ (ne_of_gt hE) hcanc
  linarith


end OliveDecoder
